import Mathlib

/-!
Verification of the virtual file-store core of this repository against its
natural-language specification.  The definitions below are shallow embeddings
of the Rust sources under src/rust/src: the path algebra (filesystem/types.rs),
the eager in-memory store (filesystem/virtual_fs.rs), the caching overlay
(filesystem/abyss.rs and filesystem/helpers.rs), the procedural subtree
generator (filesystem/cave_of_dice.rs) and the session import routine
(commands/mod.rs).  Hash maps and hash sets are modelled as key-unique
association lists; fallible or panicking code is modelled with Option/Except;
the external fetch capability is a function parameter from URL to
Except String String; randomness is a function parameter giving the outcome
of each draw.
-/

namespace Site

/-! Path algebra, from src/rust/src/filesystem/types.rs. -/

/-- A single path move: descend into a named child, or ascend to the parent
(enum NextDir in types.rs). -/
inductive NextDir where
  | In (name : String)
  | Out
deriving DecidableEq, Repr

/-- A directory path: an ordered sequence of moves from the implicit root
(struct DirPath in types.rs). -/
structure DirPath where
  moves : List NextDir
deriving DecidableEq, Repr

/-- DirPath::root. -/
def DirPath.root : DirPath := ⟨[]⟩

/-- DirPath::cd from types.rs lines 130-153, written functionally: the Rust
code mutates the vector in place, here the updated path is returned. -/
def DirPath.cd (p : DirPath) (next : NextDir) (at_root : Bool) : DirPath :=
  match next with
  | .In s => ⟨p.moves ++ [.In s]⟩
  | .Out =>
    if at_root then
      ⟨p.moves.dropLast⟩
    else
      match p.moves.getLast? with
      | none => ⟨[.Out]⟩
      | some .Out => ⟨p.moves ++ [.Out]⟩
      | some (.In _) => ⟨p.moves.dropLast⟩

/-- DirPath::normalised: replay the whole move sequence through cd starting
from the root. -/
def DirPath.normalised (p : DirPath) (at_root : Bool) : DirPath :=
  p.moves.foldl (fun acc v => acc.cd v at_root) DirPath.root

/-- Rendering of one move inside DirPath::to_string. -/
def NextDir.render : NextDir → String
  | .In name => "/" ++ name
  | .Out => "/.."

/-- DirPath::to_string: the root renders as a single separator, otherwise the
moves render in sequence order. -/
def DirPath.render (p : DirPath) : String :=
  if p.moves = [] then "/"
  else p.moves.foldl (fun acc d => acc ++ d.render) ""

/-- DirPath::concat: replay the relative path's moves onto the base. -/
def DirPath.concat (p : DirPath) (relative : DirPath) (at_root : Bool) : DirPath :=
  relative.moves.foldl (fun acc v => acc.cd v at_root) p

/-- Modelled from the spec: DirPath::super_dir is used throughout the sources
but its definition is not under src/.  Per spec section 4.1 it returns the
parent path and fails (returns nothing) on the root or on a path whose last
move is an ascend marker. -/
def DirPath.super_dir (p : DirPath) : Option DirPath :=
  match p.moves.getLast? with
  | some (.In _) => some ⟨p.moves.dropLast⟩
  | _ => none

/-- Modelled from the spec: DirPath::final_component is used throughout the
sources but its definition is not under src/.  Per spec section 4.1 it returns
the last descend-name and fails (returns nothing) on the root or on a path
whose last move is an ascend marker. -/
def DirPath.final_component (p : DirPath) : Option String :=
  match p.moves.getLast? with
  | some (.In s) => some s
  | _ => none

/-- A file path: containing directory plus file name (struct FilePath in
types.rs). -/
structure FilePath where
  dir : DirPath
  file : String
deriving DecidableEq, Repr

/-- Splitting of a character list at every occurrence of a separator,
keeping empty pieces (the behaviour of str::split in Rust and of
String.splitOn in Lean, written structurally so it evaluates). -/
def splitOnChar (sep : Char) : List Char → List (List Char)
  | [] => [[]]
  | x :: xs =>
    match splitOnChar sep xs with
    | [] => [[]]
    | h :: t => if x = sep then [] :: h :: t else (x :: h) :: t

/-- String split on a separator character. -/
def splitStr (sep : Char) (s : String) : List String :=
  (splitOnChar sep s.data).map (fun l => ⟨l⟩)

/-- Whitespace trimming at both ends (str::trim in Rust, restricted to the
ASCII whitespace that can occur in the side files). -/
def trimStr (s : String) : String :=
  ⟨((s.data.dropWhile Char.isWhitespace).reverse.dropWhile Char.isWhitespace).reverse⟩

/-- Leading-separator test (str::starts_with in Rust). -/
def startsWithSlash (s : String) : Bool :=
  match s.data with
  | c :: _ => c = '/'
  | [] => false

/-- FilePath::parse from types.rs lines 45-82.  The Rust code splits the text
at the last separator (rsplitn with 2); splitting on the separator and taking
the last piece as the file name is equivalent.  Directory components are
resolved through cd with clamp-at-root semantics, with dot segments skipped
and dot-dot segments as ascend moves. -/
def FilePath.parse (path : String) (current_dir : DirPath) : FilePath :=
  let parts := splitStr '/' path
  if parts.length = 1 then
    ⟨current_dir, path⟩
  else
    let filename := parts.getLastD ""
    let base := if startsWithSlash path then DirPath.root else current_dir
    let dir := (parts.dropLast.filter (fun s => s ≠ "")).foldl
      (fun acc comp =>
        if comp = "." then acc
        else if comp = ".." then acc.cd .Out true
        else acc.cd (.In comp) true) base
    ⟨dir, filename⟩

/-! Basic facts about cd and normalisation used by the claims about the path
algebra. -/

/-- A move sequence that contains only descend moves. -/
def onlyDescends (l : List NextDir) : Prop :=
  ∀ x ∈ l, ∃ s, x = NextDir.In s

theorem cd_in_moves (p : DirPath) (s : String) (b : Bool) :
    (p.cd (.In s) b).moves = p.moves ++ [.In s] := rfl

theorem cd_out_true_moves (p : DirPath) :
    (p.cd .Out true).moves = p.moves.dropLast := rfl

theorem onlyDescends_dropLast {l : List NextDir} (h : onlyDescends l) :
    onlyDescends l.dropLast := by
  intro x hx
  exact h x (List.dropLast_subset l hx)

theorem onlyDescends_cd {p : DirPath} (h : onlyDescends p.moves) (v : NextDir) :
    onlyDescends (p.cd v true).moves := by
  cases v with
  | In s =>
    intro x hx
    rw [cd_in_moves] at hx
    rcases List.mem_append.mp hx with hx | hx
    · exact h x hx
    · exact ⟨s, List.mem_singleton.mp hx⟩
  | Out =>
    rw [cd_out_true_moves]
    exact onlyDescends_dropLast h

theorem onlyDescends_foldl_cd (l : List NextDir) :
    ∀ (p : DirPath), onlyDescends p.moves →
      onlyDescends ((l.foldl (fun acc v => acc.cd v true) p).moves) := by
  induction l with
  | nil => intro p hp; exact hp
  | cons v rest ih =>
    intro p hp
    exact ih (p.cd v true) (onlyDescends_cd hp v)

/-- Normalisation with clamp-at-root produces a move sequence with no ascend
markers left. -/
theorem onlyDescends_normalised (p : DirPath) :
    onlyDescends (p.normalised true).moves := by
  unfold DirPath.normalised
  exact onlyDescends_foldl_cd p.moves DirPath.root (by intro x hx; cases hx)

theorem foldl_cd_onlyDescends (l : List NextDir) :
    ∀ (p : DirPath), onlyDescends l →
      l.foldl (fun acc v => acc.cd v true) p = ⟨p.moves ++ l⟩ := by
  induction l with
  | nil => intro p _; simp [DirPath.mk.injEq]
  | cons v rest ih =>
    intro p hl
    obtain ⟨s, hs⟩ := hl v (List.mem_cons_self v rest)
    subst hs
    have hrest : onlyDescends rest := fun x hx => hl x (List.mem_cons_of_mem _ hx)
    rw [List.foldl_cons, ih (p.cd (.In s) true) hrest]
    simp [cd_in_moves]

/-- C8: for every move sequence, normalisation with clamp-at-root is
idempotent: normalising an already normalised path returns it unchanged. -/
theorem normalised_true_idempotent (p : DirPath) :
    (p.normalised true).normalised true = p.normalised true := by
  unfold DirPath.normalised
  have h := foldl_cd_onlyDescends (p.normalised true).moves DirPath.root
    (onlyDescends_normalised p)
  unfold DirPath.normalised at h
  rw [h]
  rfl

/-- C9: an ascend at the root is a no-op under clamp-at-root; without clamping
it grows the root path to a single ascend marker, whose rendering has one
leading ascend token where the root rendered bare; and without clamping an
ascend applied to a path ending in an ascend marker appends another marker
rather than cancelling. -/
theorem cd_out_root_and_stacking :
    DirPath.root.cd .Out true = DirPath.root ∧
    DirPath.root.cd .Out false = ⟨[.Out]⟩ ∧
    DirPath.root.render = "/" ∧
    (DirPath.root.cd .Out false).render = "/.." ∧
    ∀ (l : List NextDir),
      DirPath.cd ⟨l ++ [.Out]⟩ .Out false = ⟨l ++ [.Out, .Out]⟩ := by
  refine ⟨rfl, rfl, rfl, rfl, ?_⟩
  intro l
  simp [DirPath.cd, List.getLast?_concat, List.append_assoc]

/-! Association-list model of the Rust HashMap and HashSet.  Keys are unique
because insertion erases any previous binding of the same key; lookup and
erase are the usual first-match operations. -/

/-- Lookup of a key in an association list (models HashMap::get). -/
def lookupKey {κ α : Type} [DecidableEq κ] : List (κ × α) → κ → Option α
  | [], _ => none
  | (k', v) :: rest, k => if k' = k then some v else lookupKey rest k

/-- Removal of a key from an association list (models HashMap::remove). -/
def eraseKey {κ α : Type} [DecidableEq κ] : List (κ × α) → κ → List (κ × α)
  | [], _ => []
  | (k', v) :: rest, k => if k' = k then eraseKey rest k else (k', v) :: eraseKey rest k

/-- Insert-or-replace of a binding (models HashMap::insert). -/
def insertKey {κ α : Type} [DecidableEq κ] (m : List (κ × α)) (k : κ) (v : α) :
    List (κ × α) :=
  (k, v) :: eraseKey m k

/-- Insertion into a set of names (models HashSet::insert). -/
def setInsert (l : List String) (s : String) : List String :=
  if s ∈ l then l else s :: l

theorem lookupKey_insertKey_self {κ α : Type} [DecidableEq κ]
    (m : List (κ × α)) (k : κ) (v : α) :
    lookupKey (insertKey m k v) k = some v := by
  simp [insertKey, lookupKey]

theorem lookupKey_eraseKey_ne {κ α : Type} [DecidableEq κ]
    (m : List (κ × α)) (k k' : κ) (h : k ≠ k') :
    lookupKey (eraseKey m k') k = lookupKey m k := by
  induction m with
  | nil => rfl
  | cons kv rest ih =>
    obtain ⟨k₀, v₀⟩ := kv
    have h' : ¬(k' = k) := fun hc => h hc.symm
    by_cases hk : k₀ = k'
    · have hne : k₀ ≠ k := fun hc => h ((hc.symm.trans hk))
      simp [eraseKey, lookupKey, hk, hne, h', ih]
    · by_cases he : k₀ = k
      · simp [eraseKey, lookupKey, hk, he, h]
      · simp [eraseKey, lookupKey, hk, he, ih]

theorem lookupKey_insertKey_ne {κ α : Type} [DecidableEq κ]
    (m : List (κ × α)) (k k' : κ) (v : α) (h : k ≠ k') :
    lookupKey (insertKey m k' v) k = lookupKey m k := by
  have h' : k' ≠ k := fun hc => h hc.symm
  simp [insertKey, lookupKey, h', lookupKey_eraseKey_ne m k k' h]

theorem lookupKey_eraseKey_self {κ α : Type} [DecidableEq κ]
    (m : List (κ × α)) (k : κ) :
    lookupKey (eraseKey m k) k = none := by
  induction m with
  | nil => rfl
  | cons kv rest ih =>
    obtain ⟨k₀, v₀⟩ := kv
    by_cases hk : k₀ = k
    · simpa [eraseKey, hk] using ih
    · simp [eraseKey, lookupKey, hk, ih]

/-! Content model, from types.rs and abyss.rs. -/

/-- Content is either resident in memory or a pending fetch marker
(enum Content in types.rs). -/
inductive Content where
  | InMemory (text : String)
  | ToFetch
deriving DecidableEq, Repr

/-- The file listing of one directory: file name to Content
(struct Contents in abyss.rs, a HashMap). -/
structure Contents where
  entries : List (String × Content)
deriving DecidableEq, Repr

/-- The set of child directory names of one directory
(struct Directories in abyss.rs, a HashSet). -/
structure Directories where
  names : List String
deriving DecidableEq, Repr

/-- Contents::from_file: one file name per line, trimmed, blank lines
ignored, each mapped to a pending fetch marker. -/
def Contents.from_file (text : String) : Contents :=
  ⟨((splitStr '\n' text).map trimStr).filter (fun l => l ≠ "") |>.foldl
    (fun acc name => insertKey acc name Content.ToFetch) []⟩

/-- Directories::from_file: one directory name per line, trimmed, blank lines
ignored, collected into a set. -/
def Directories.from_file (text : String) : Directories :=
  ⟨((splitStr '\n' text).map trimStr).filter (fun l => l ≠ "") |>.foldl
    (fun acc name => setInsert acc name) []⟩

/-! The caching overlay, from src/rust/src/filesystem/abyss.rs. -/

/-- The internal control signal saying a cache entry the mutation needs is
absent (struct NeedsFetch in abyss.rs). -/
inductive NeedsFetch where
  | mk
deriving DecidableEq, Repr

/-- The sparse overlay over the remote authoritative tree: cached file
listings and cached subdirectory sets, each keyed by directory path
(struct AbyssFileSystem in abyss.rs). -/
structure AbyssFileSystem where
  files : List (DirPath × Contents)
  dirs : List (DirPath × Directories)
deriving DecidableEq, Repr

/-- AbyssFileSystem::sync_remove_file, abyss.rs lines 85-93: needs the target
directory's cached listing; removes the name from it (reporting success even
when the name was absent). -/
def AbyssFileSystem.sync_remove_file (afs : AbyssFileSystem) (fp : FilePath) :
    Except NeedsFetch AbyssFileSystem :=
  match lookupKey afs.files fp.dir with
  | some contents =>
    .ok { afs with files := insertKey afs.files fp.dir ⟨eraseKey contents.entries fp.file⟩ }
  | none => .error .mk

/-- AbyssFileSystem::sync_remove_file_with_data, abyss.rs lines 96-103. -/
def AbyssFileSystem.sync_remove_file_with_data (afs : AbyssFileSystem)
    (fp : FilePath) (contents : Contents) : Except String AbyssFileSystem :=
  match lookupKey contents.entries fp.file with
  | some _ =>
    .ok { afs with files := insertKey afs.files fp.dir ⟨eraseKey contents.entries fp.file⟩ }
  | none => .error ("No such file: " ++ fp.dir.render ++ "/" ++ fp.file)

/-- AbyssFileSystem::sync_write_file, abyss.rs lines 206-214. -/
def AbyssFileSystem.sync_write_file (afs : AbyssFileSystem) (fp : FilePath)
    (content : String) : Except NeedsFetch AbyssFileSystem :=
  match lookupKey afs.files fp.dir with
  | some contents =>
    .ok { afs with
          files := insertKey afs.files fp.dir
            ⟨insertKey contents.entries fp.file (Content.InMemory content)⟩ }
  | none => .error .mk

/-- AbyssFileSystem::sync_write_file_with_data, abyss.rs lines 217-220. -/
def AbyssFileSystem.sync_write_file_with_data (afs : AbyssFileSystem)
    (fp : FilePath) (contents : Contents) (content : String) : AbyssFileSystem :=
  { afs with
    files := insertKey afs.files fp.dir
      ⟨insertKey contents.entries fp.file (Content.InMemory content)⟩ }

/-- AbyssFileSystem::sync_remove_dir, abyss.rs lines 106-129.  Note the code
signals NeedsFetch not only on a missing cache entry but also when the target
directory is non-empty (the comment there says the error is signalled through
NeedsFetch to trigger a re-check with fresh data). -/
def AbyssFileSystem.sync_remove_dir (afs : AbyssFileSystem) (d : DirPath) :
    Except NeedsFetch AbyssFileSystem :=
  match lookupKey afs.files d with
  | none => .error .mk
  | some contents =>
    match lookupKey afs.dirs d with
    | none => .error .mk
    | some directories =>
      if ¬contents.entries.isEmpty ∨ ¬directories.names.isEmpty then .error .mk
      else
        match d.super_dir with
        | none => .error .mk
        | some parent =>
          match lookupKey afs.dirs parent with
          | none => .error .mk
          | some parent_dirs =>
            match d.final_component with
            | some dirname =>
              .ok { files := eraseKey afs.files d,
                    dirs := eraseKey
                      (insertKey afs.dirs parent ⟨parent_dirs.names.filter (fun n => n ≠ dirname)⟩) d }
            | none => .error .mk

/-- AbyssFileSystem::sync_remove_dir_with_data, abyss.rs lines 132-161. -/
def AbyssFileSystem.sync_remove_dir_with_data (afs : AbyssFileSystem)
    (d : DirPath) (contents : Contents) (directories : Directories)
    (parent_dirs : Directories) : Except String AbyssFileSystem :=
  if ¬contents.entries.isEmpty ∨ ¬directories.names.isEmpty then
    .error "Directory not empty"
  else
    match d.super_dir, d.final_component with
    | some parent, some dirname =>
      .ok { files := eraseKey afs.files d,
            dirs := eraseKey
              (insertKey afs.dirs parent ⟨parent_dirs.names.filter (fun n => n ≠ dirname)⟩) d }
    | _, _ => .error "Invalid path"

/-- AbyssFileSystem::sync_create_dir, abyss.rs lines 164-180: needs the
parent's cached subdirectory set; inserts the new name there and installs a
fresh empty Contents and Directories pair for the target path, replacing
whatever was cached for it. -/
def AbyssFileSystem.sync_create_dir (afs : AbyssFileSystem) (d : DirPath) :
    Except NeedsFetch AbyssFileSystem :=
  match d.super_dir with
  | none => .error .mk
  | some parent =>
    match d.final_component with
    | none => .error .mk
    | some dir_name =>
      match lookupKey afs.dirs parent with
      | none => .error .mk
      | some parent_dirs =>
        .ok { files := insertKey afs.files d ⟨[]⟩,
              dirs := insertKey
                (insertKey afs.dirs parent ⟨setInsert parent_dirs.names dir_name⟩) d ⟨[]⟩ }

/-- AbyssFileSystem::sync_create_dir_with_data, abyss.rs lines 183-203. -/
def AbyssFileSystem.sync_create_dir_with_data (afs : AbyssFileSystem)
    (d : DirPath) (parent_dirs : Directories) : Except String AbyssFileSystem :=
  match d.super_dir, d.final_component with
  | some parent, some dir_name =>
    .ok { files := insertKey afs.files d ⟨[]⟩,
          dirs := insertKey
            (insertKey afs.dirs parent ⟨setInsert parent_dirs.names dir_name⟩) d ⟨[]⟩ }
  | _, _ => .error "Invalid path"

/-! Statement-level predicates describing which cache entries each overlay
mutation requires, used to state the claims about the sync protocol. -/

/-- Success test for the Result values of the sync mutations. -/
def exceptOk {ε α : Type} : Except ε α → Bool
  | .ok _ => true
  | .error _ => false

/-- The cache entry a file write or delete needs: the target directory's own
file listing. -/
def fileDirCached (afs : AbyssFileSystem) (fp : FilePath) : Bool :=
  (lookupKey afs.files fp.dir).isSome

/-- The cache entry a directory creation needs: the parent's cached
subdirectory set (the path must have a parent and a final name at all). -/
def createDirCached (afs : AbyssFileSystem) (d : DirPath) : Bool :=
  match d.super_dir, d.final_component with
  | some p, some _ => (lookupKey afs.dirs p).isSome
  | _, _ => false

/-- The cache entries a directory removal needs: the target's own file
listing and subdirectory set, and the parent's cached subdirectory set. -/
def removeDirCached (afs : AbyssFileSystem) (d : DirPath) : Bool :=
  (lookupKey afs.files d).isSome && (lookupKey afs.dirs d).isSome &&
  (match d.super_dir with
   | some p => (lookupKey afs.dirs p).isSome
   | none => false) &&
  d.final_component.isSome

/-- The target directory is cached as empty: no files and no
subdirectories. -/
def removeDirTargetEmpty (afs : AbyssFileSystem) (d : DirPath) : Bool :=
  (match lookupKey afs.files d with
   | some c => c.entries.isEmpty
   | none => false) &&
  (match lookupKey afs.dirs d with
   | some ds => ds.names.isEmpty
   | none => false)

theorem super_dir_ne (d p : DirPath) (hs : d.super_dir = some p) : p ≠ d := by
  unfold DirPath.super_dir at hs
  cases hgl : d.moves.getLast? with
  | none => rw [hgl] at hs; cases hs
  | some x =>
    rw [hgl] at hs
    cases x with
    | Out => cases hs
    | In s =>
      have hp : p = ⟨d.moves.dropLast⟩ := by
        cases hs; rfl
      have hne : d.moves ≠ [] := by
        intro h0
        rw [h0] at hgl
        cases hgl
      have hlen : d.moves.length ≠ 0 := by
        intro h0
        exact hne (List.length_eq_zero.mp h0)
      intro hpd
      have h1 : p.moves.length = d.moves.length := by rw [hpd]
      rw [hp] at h1
      simp only [List.length_dropLast] at h1
      omega

/-- C1 (amended): the sync attempt of a file write, file delete or directory
creation succeeds exactly when the cache entries it needs are present, and
signals needs-fetch exactly when one is missing; the sync attempt of a
directory removal succeeds exactly when its cache entries are present AND the
target is empty — a present-but-non-empty target also signals needs-fetch
(rather than a domain failure), deferring the not-empty report to the
fetch-and-retry path. -/
theorem claim1_sync_mutation_needsfetch :
    (∀ (afs : AbyssFileSystem) (fp : FilePath) (c : String),
      exceptOk (afs.sync_write_file fp c) = fileDirCached afs fp) ∧
    (∀ (afs : AbyssFileSystem) (fp : FilePath),
      exceptOk (afs.sync_remove_file fp) = fileDirCached afs fp) ∧
    (∀ (afs : AbyssFileSystem) (d : DirPath),
      exceptOk (afs.sync_create_dir d) = createDirCached afs d) ∧
    (∀ (afs : AbyssFileSystem) (d : DirPath),
      exceptOk (afs.sync_remove_dir d) =
        (removeDirCached afs d && removeDirTargetEmpty afs d)) := by
  refine ⟨?_, ?_, ?_, ?_⟩
  · intro afs fp c
    cases hl : lookupKey afs.files fp.dir <;>
      simp [AbyssFileSystem.sync_write_file, exceptOk, fileDirCached, hl]
  · intro afs fp
    cases hl : lookupKey afs.files fp.dir <;>
      simp [AbyssFileSystem.sync_remove_file, exceptOk, fileDirCached, hl]
  · intro afs d
    unfold AbyssFileSystem.sync_create_dir createDirCached
    cases hs : d.super_dir with
    | none => simp [exceptOk]
    | some p =>
      cases hf : d.final_component with
      | none => simp [exceptOk]
      | some n =>
        cases hp : lookupKey afs.dirs p <;> simp [exceptOk, hp]
  · intro afs d
    unfold AbyssFileSystem.sync_remove_dir removeDirCached removeDirTargetEmpty
    cases hf : lookupKey afs.files d with
    | none => simp [exceptOk]
    | some contents =>
      cases hd : lookupKey afs.dirs d with
      | none => simp [exceptOk]
      | some directories =>
        by_cases hne : ¬contents.entries.isEmpty = true ∨ ¬directories.names.isEmpty = true
        · rcases hne with hne | hne <;> simp_all [exceptOk]
        · push_neg at hne
          obtain ⟨hc, hds⟩ := hne
          cases hs : d.super_dir with
          | none =>
            have hfc : d.final_component = none := by
              unfold DirPath.super_dir at hs
              unfold DirPath.final_component
              cases hgl : d.moves.getLast? with
              | none => rfl
              | some x =>
                rw [hgl] at hs
                cases x with
                | Out => rfl
                | In s => cases hs
            simp [exceptOk, hc, hds, hs, hfc]
          | some p =>
            have hfc : ∃ s, d.final_component = some s := by
              unfold DirPath.super_dir at hs
              unfold DirPath.final_component
              cases hgl : d.moves.getLast? with
              | none => rw [hgl] at hs; cases hs
              | some x =>
                rw [hgl] at hs
                cases x with
                | Out => cases hs
                | In s => exact ⟨s, rfl⟩
            obtain ⟨s, hfc⟩ := hfc
            cases hp : lookupKey afs.dirs p <;>
              simp [exceptOk, hc, hds, hs, hfc, hp]

/-- C1 counterexample: a cache state in which every entry a directory removal
needs is present (the target's file listing and subdirectory set and the
parent's subdirectory set) yet the sync attempt signals needs-fetch, because
the target directory is non-empty — the claim as stated says needs-fetch is
signalled only when a required cache entry is missing. -/
theorem claim1_counterexample :
    removeDirCached
      ⟨[(⟨[.In "abyss", .In "x"]⟩, ⟨[("f.txt", .ToFetch)]⟩)],
       [(⟨[.In "abyss", .In "x"]⟩, ⟨[]⟩), (⟨[.In "abyss"]⟩, ⟨["x"]⟩)]⟩
      ⟨[.In "abyss", .In "x"]⟩ = true ∧
    AbyssFileSystem.sync_remove_dir
      ⟨[(⟨[.In "abyss", .In "x"]⟩, ⟨[("f.txt", .ToFetch)]⟩)],
       [(⟨[.In "abyss", .In "x"]⟩, ⟨[]⟩), (⟨[.In "abyss"]⟩, ⟨["x"]⟩)]⟩
      ⟨[.In "abyss", .In "x"]⟩ = .error .mk := by
  constructor
  · rfl
  · rfl

/-- C6: when the parent's subdirectory set is cached, sync directory creation
succeeds even if the target path is already cached, and installs a fresh
empty file listing and subdirectory set for the target, replacing whatever
was cached there, while inserting the name into the parent's set. -/
theorem claim6_create_dir_overwrites (afs : AbyssFileSystem) (d p : DirPath)
    (n : String) (pd : Directories)
    (hs : d.super_dir = some p) (hf : d.final_component = some n)
    (hp : lookupKey afs.dirs p = some pd) :
    ∃ afs', afs.sync_create_dir d = .ok afs' ∧
      lookupKey afs'.files d = some ⟨[]⟩ ∧
      lookupKey afs'.dirs d = some ⟨[]⟩ ∧
      lookupKey afs'.dirs p = some ⟨setInsert pd.names n⟩ := by
  have hpd : p ≠ d := super_dir_ne d p hs
  refine ⟨{ files := insertKey afs.files d ⟨[]⟩,
            dirs := insertKey (insertKey afs.dirs p ⟨setInsert pd.names n⟩) d ⟨[]⟩ },
          ?_, ?_, ?_, ?_⟩
  · unfold AbyssFileSystem.sync_create_dir
    rw [hs, hf]
    simp [hp]
  · exact lookupKey_insertKey_self _ _ _
  · exact lookupKey_insertKey_self _ _ _
  · rw [lookupKey_insertKey_ne _ p d _ hpd, lookupKey_insertKey_self]

/-- Concrete run of claim6_create_dir_overwrites: the target path is already
cached with a non-empty file listing and subdirectory set, and creation
replaces both with fresh empty ones. -/
theorem claim6_witness :
    ∃ afs', AbyssFileSystem.sync_create_dir
        ⟨[(⟨[.In "abyss", .In "x"]⟩, ⟨[("old.txt", .InMemory "v")]⟩)],
         [(⟨[.In "abyss", .In "x"]⟩, ⟨["sub"]⟩), (⟨[.In "abyss"]⟩, ⟨[]⟩)]⟩
        ⟨[.In "abyss", .In "x"]⟩ = .ok afs' ∧
      lookupKey afs'.files ⟨[.In "abyss", .In "x"]⟩ = some ⟨[]⟩ ∧
      lookupKey afs'.dirs ⟨[.In "abyss", .In "x"]⟩ = some ⟨[]⟩ ∧
      lookupKey afs'.dirs ⟨[.In "abyss"]⟩ = some ⟨setInsert [] "x"⟩ :=
  claim6_create_dir_overwrites
    ⟨[(⟨[.In "abyss", .In "x"]⟩, ⟨[("old.txt", .InMemory "v")]⟩)],
     [(⟨[.In "abyss", .In "x"]⟩, ⟨["sub"]⟩), (⟨[.In "abyss"]⟩, ⟨[]⟩)]⟩
    ⟨[.In "abyss", .In "x"]⟩ ⟨[.In "abyss"]⟩ "x" ⟨[]⟩ rfl rfl (by decide)

/-! The eager in-memory store, from src/rust/src/filesystem/virtual_fs.rs. -/

/-- One manifest file record (struct FileEntry in types.rs): file name plus
the path of its containing directory. -/
structure FileEntry where
  name : String
  path : String
deriving DecidableEq, Repr

/-- The bootstrap manifest (struct Manifest in types.rs). -/
structure Manifest where
  files : List FileEntry
  directories : List String
deriving DecidableEq, Repr

/-- The eager store: a mapping from directory path to its file contents
(struct VirtualFilesystem in virtual_fs.rs). -/
structure VirtualFilesystem where
  content : List (DirPath × List (String × Content))
deriving DecidableEq, Repr

/-- Path construction used by initialize_from_manifest: each slash-separated
non-empty component is a descend move (no dot handling there). -/
def manifestPath (s : String) : DirPath :=
  ((splitStr '/' s).filter (fun c => c ≠ "")).foldl
    (fun acc c => acc.cd (.In c) true) DirPath.root

/-- One step of the manifest file loop in initialize_from_manifest,
virtual_fs.rs lines 31-41: content.entry(dir).or_insert_with(new) followed by
inserting the file name with a pending marker. -/
def manifestFileStep (acc : List (DirPath × List (String × Content)))
    (fe : FileEntry) : List (DirPath × List (String × Content)) :=
  insertKey acc (manifestPath fe.path)
    (insertKey ((lookupKey acc (manifestPath fe.path)).getD []) fe.name Content.ToFetch)

/-- VirtualFilesystem::initialize_from_manifest, virtual_fs.rs lines 17-42:
inserts the root, then one (replacing) empty entry per listed directory, then
one pending marker per listed file under its containing directory. -/
def VirtualFilesystem.initialize_from_manifest (vfs : VirtualFilesystem)
    (m : Manifest) : VirtualFilesystem :=
  let c0 := insertKey vfs.content DirPath.root []
  let c1 := m.directories.foldl
    (fun acc ds => insertKey acc (manifestPath ds) []) c0
  ⟨m.files.foldl manifestFileStep c1⟩

/-- VirtualFilesystem::write_file, virtual_fs.rs lines 45-50. -/
def VirtualFilesystem.write_file (vfs : VirtualFilesystem) (fp : FilePath)
    (c : String) : VirtualFilesystem :=
  ⟨insertKey vfs.content fp.dir
    (insertKey ((lookupKey vfs.content fp.dir).getD []) fp.file (.InMemory c))⟩

/-- VirtualFilesystem::get_content, virtual_fs.rs lines 53-55. -/
def VirtualFilesystem.get_content (vfs : VirtualFilesystem) (fp : FilePath) :
    Option Content :=
  match lookupKey vfs.content fp.dir with
  | some files => lookupKey files fp.file
  | none => none

/-- VirtualFilesystem::dir_exists, virtual_fs.rs lines 80-82. -/
def VirtualFilesystem.dir_exists (vfs : VirtualFilesystem) (d : DirPath) : Bool :=
  (lookupKey vfs.content d).isSome

/-- The strict-descendant test used by VirtualFilesystem::remove_dir,
virtual_fs.rs lines 96-109: a stored key strictly longer than the target
whose leading components all match the target's. -/
def strictDescendantOf (k d : DirPath) : Bool :=
  decide (d.moves.length < k.moves.length) &&
  decide (k.moves.take d.moves.length = d.moves)

/-- VirtualFilesystem::remove_dir, virtual_fs.rs lines 85-113.  Every error
is returned before the store is touched, so the embedding returns the error
with no new store. -/
def VirtualFilesystem.remove_dir (vfs : VirtualFilesystem) (d : DirPath) :
    Except String VirtualFilesystem :=
  match lookupKey vfs.content d with
  | some files =>
    if ¬files.isEmpty then .error "Directory not empty"
    else if vfs.content.any (fun kv => strictDescendantOf kv.1 d) then
      .error "Directory not empty"
    else .ok ⟨eraseKey vfs.content d⟩
  | none => .error "Directory does not exist"

/-- The removability condition of the eager store: the directory has an
entry with no files and no stored strict descendant. -/
def vfsRemovable (vfs : VirtualFilesystem) (d : DirPath) : Bool :=
  (match lookupKey vfs.content d with
   | some files => files.isEmpty
   | none => false) &&
  !(vfs.content.any (fun kv => strictDescendantOf kv.1 d))

theorem super_dir_final_component_cases (d : DirPath) :
    (d.super_dir = none ∧ d.final_component = none) ∨
    (∃ p s, d.super_dir = some p ∧ d.final_component = some s) := by
  unfold DirPath.super_dir DirPath.final_component
  cases hgl : d.moves.getLast? with
  | none => exact Or.inl ⟨rfl, rfl⟩
  | some x =>
    cases x with
    | Out => exact Or.inl ⟨rfl, rfl⟩
    | In s => exact Or.inr ⟨⟨d.moves.dropLast⟩, s, rfl, rfl⟩

/-- C4 (amended): in the eager store, removal succeeds exactly when the
directory's entry is present with no files and no stored strict descendant,
and a non-empty directory always fails with the not-empty error; in the
overlay, removal with fetched data succeeds exactly when the supplied file
listing and subdirectory set are empty AND the path has a final descend
component, a non-empty directory always fails with the not-empty error, and
an empty directory with no parent component (the root, or a trailing ascend
marker) fails with the invalid-path error instead of succeeding.  In both
stores every failure is returned before the store is modified. -/
theorem claim4_remove_dir_empty_iff :
    (∀ (vfs : VirtualFilesystem) (d : DirPath),
      exceptOk (vfs.remove_dir d) = vfsRemovable vfs d) ∧
    (∀ (vfs : VirtualFilesystem) (d : DirPath) (files : List (String × Content)),
      lookupKey vfs.content d = some files → files.isEmpty = false →
      vfs.remove_dir d = .error "Directory not empty") ∧
    (∀ (afs : AbyssFileSystem) (d : DirPath) (c : Contents) (ds pd : Directories),
      exceptOk (afs.sync_remove_dir_with_data d c ds pd) =
        (c.entries.isEmpty && ds.names.isEmpty && d.final_component.isSome)) ∧
    (∀ (afs : AbyssFileSystem) (d : DirPath) (c : Contents) (ds pd : Directories),
      c.entries.isEmpty = false ∨ ds.names.isEmpty = false →
      afs.sync_remove_dir_with_data d c ds pd = .error "Directory not empty") := by
  refine ⟨?_, ?_, ?_, ?_⟩
  · intro vfs d
    unfold VirtualFilesystem.remove_dir vfsRemovable
    cases hl : lookupKey vfs.content d with
    | none => simp [exceptOk]
    | some files =>
      by_cases hne : files.isEmpty = true
      · by_cases hany : vfs.content.any (fun kv => strictDescendantOf kv.1 d) = true
        · simp [exceptOk, hne, hany]
        · simp [exceptOk, hne, hany]
      · simp [exceptOk, hne]
  · intro vfs d files hl hne
    unfold VirtualFilesystem.remove_dir
    rw [hl]
    simp [hne]
  · intro afs d c ds pd
    unfold AbyssFileSystem.sync_remove_dir_with_data
    by_cases hc : c.entries.isEmpty = true
    · by_cases hd : ds.names.isEmpty = true
      · rcases super_dir_final_component_cases d with ⟨hs, hf⟩ | ⟨p, s, hs, hf⟩
        · simp [exceptOk, hc, hd, hs, hf]
        · simp [exceptOk, hc, hd, hs, hf]
      · simp [exceptOk, hc, hd]
    · simp [exceptOk, hc]
  · intro afs d c ds pd h
    unfold AbyssFileSystem.sync_remove_dir_with_data
    rcases h with h | h <;> simp [h]

/-- Concrete run of claim4_remove_dir_empty_iff: removing a directory that
still contains a file fails with the not-empty error. -/
theorem claim4_witness :
    VirtualFilesystem.remove_dir ⟨[(⟨[.In "docs"]⟩, [("note.txt", .InMemory "hi")])]⟩
      ⟨[.In "docs"]⟩ = .error "Directory not empty" :=
  claim4_remove_dir_empty_iff.2.1 ⟨[(⟨[.In "docs"]⟩, [("note.txt", .InMemory "hi")])]⟩
    ⟨[.In "docs"]⟩ [("note.txt", .InMemory "hi")] rfl rfl

/-- C4 counterexample: the overlay store holding the root as a directory with
zero files and zero subdirectories, yet removal of the root with that (empty)
data fails with the invalid-path error — the claim as stated says removal
succeeds whenever the directory has zero files and zero subdirectories. -/
theorem claim4_counterexample :
    lookupKey (AbyssFileSystem.mk [(DirPath.root, ⟨[]⟩)] [(DirPath.root, ⟨[]⟩)]).files
      DirPath.root = some ⟨[]⟩ ∧
    lookupKey (AbyssFileSystem.mk [(DirPath.root, ⟨[]⟩)] [(DirPath.root, ⟨[]⟩)]).dirs
      DirPath.root = some ⟨[]⟩ ∧
    AbyssFileSystem.sync_remove_dir_with_data
      ⟨[(DirPath.root, ⟨[]⟩)], [(DirPath.root, ⟨[]⟩)]⟩
      DirPath.root ⟨[]⟩ ⟨[]⟩ ⟨[]⟩ = .error "Invalid path" := by
  refine ⟨rfl, rfl, rfl⟩

/-! Properties of the manifest bootstrap (claim C5). -/

theorem lookupKey_insertKey_isSome {κ α : Type} [DecidableEq κ]
    (m : List (κ × α)) (k k' : κ) (v : α) :
    (lookupKey (insertKey m k' v) k).isSome ↔ (k = k' ∨ (lookupKey m k).isSome) := by
  by_cases h : k = k'
  · subst h
    simp [lookupKey_insertKey_self]
  · rw [lookupKey_insertKey_ne m k k' v h]
    simp [h]

theorem lookupKey_foldl_insert_isSome {κ α β : Type} [DecidableEq κ]
    (f : β → κ) (g : List (κ × α) → β → α) (k : κ) :
    ∀ (l : List β) (m : List (κ × α)),
      (lookupKey (l.foldl (fun acc b => insertKey acc (f b) (g acc b)) m) k).isSome
        ↔ (k ∈ l.map f ∨ (lookupKey m k).isSome) := by
  intro l
  induction l with
  | nil => intro m; simp
  | cons b rest ih =>
    intro m
    rw [List.foldl_cons, ih, lookupKey_insertKey_isSome]
    simp only [List.map_cons, List.mem_cons]
    tauto

/-- The content stored for a file name under a directory key of a raw
content map. -/
def contentAt (c : List (DirPath × List (String × Content))) (d : DirPath)
    (nm : String) : Option Content :=
  VirtualFilesystem.get_content ⟨c⟩ ⟨d, nm⟩

theorem manifestFileStep_sets (c : List (DirPath × List (String × Content)))
    (fe : FileEntry) :
    contentAt (manifestFileStep c fe) (manifestPath fe.path) fe.name =
      some .ToFetch := by
  unfold contentAt VirtualFilesystem.get_content manifestFileStep
  simp [lookupKey_insertKey_self]

theorem manifestFileStep_preserves (c : List (DirPath × List (String × Content)))
    (fe : FileEntry) (d : DirPath) (nm : String)
    (h : contentAt c d nm = some .ToFetch) :
    contentAt (manifestFileStep c fe) d nm = some .ToFetch := by
  unfold contentAt VirtualFilesystem.get_content at h ⊢
  unfold manifestFileStep
  by_cases hd : manifestPath fe.path = d
  · subst hd
    dsimp only at h ⊢
    rw [lookupKey_insertKey_self]
    cases hc : lookupKey c (manifestPath fe.path) with
    | none => rw [hc] at h; cases h
    | some fs =>
      rw [hc] at h
      dsimp only
      by_cases hn : fe.name = nm
      · rw [hn, lookupKey_insertKey_self]
      · rw [lookupKey_insertKey_ne _ nm fe.name _ (fun hx => hn hx.symm)]
        simpa [hc] using h
  · dsimp only at h ⊢
    rw [lookupKey_insertKey_ne _ d (manifestPath fe.path) _ (fun hx => hd hx.symm)]
    exact h

theorem manifestFold_preserves (l : List FileEntry) (d : DirPath) (nm : String) :
    ∀ (c : List (DirPath × List (String × Content))),
      contentAt c d nm = some .ToFetch →
      contentAt (l.foldl manifestFileStep c) d nm = some .ToFetch := by
  induction l with
  | nil => intro c h; exact h
  | cons b rest ih =>
    intro c h
    exact ih (manifestFileStep c b) (manifestFileStep_preserves c b d nm h)

theorem manifestFold_sets (l : List FileEntry) (fe : FileEntry) (hfe : fe ∈ l) :
    ∀ (c : List (DirPath × List (String × Content))),
      contentAt (l.foldl manifestFileStep c) (manifestPath fe.path) fe.name =
        some .ToFetch := by
  induction l with
  | nil => cases hfe
  | cons b rest ih =>
    intro c
    rcases List.mem_cons.mp hfe with hfe | hfe
    · subst hfe
      exact manifestFold_preserves rest _ _ (manifestFileStep c fe)
        (manifestFileStep_sets c fe)
    · exact ih hfe (manifestFileStep c b)

/-- C5 (amended): after manifest bootstrap the store's directory entries are
exactly the pre-existing ones plus the root, every listed directory, and
every file's containing directory — ancestors of listed paths are NOT
implicitly created — and every listed file is stored as a pending content
marker under its containing directory. -/
theorem claim5_manifest_bootstrap :
    (∀ (vfs : VirtualFilesystem) (m : Manifest) (d : DirPath),
      (lookupKey (vfs.initialize_from_manifest m).content d).isSome ↔
        (d = DirPath.root ∨ d ∈ m.directories.map manifestPath ∨
         d ∈ m.files.map (fun fe => manifestPath fe.path) ∨
         (lookupKey vfs.content d).isSome)) ∧
    (∀ (vfs : VirtualFilesystem) (m : Manifest) (fe : FileEntry),
      fe ∈ m.files →
      (vfs.initialize_from_manifest m).get_content ⟨manifestPath fe.path, fe.name⟩ =
        some Content.ToFetch) := by
  constructor
  · intro vfs m d
    unfold VirtualFilesystem.initialize_from_manifest
    have hstep : manifestFileStep =
        fun acc b => insertKey acc ((fun fe : FileEntry => manifestPath fe.path) b)
          ((fun (acc : List (DirPath × List (String × Content))) (fe : FileEntry) =>
            insertKey ((lookupKey acc (manifestPath fe.path)).getD []) fe.name
              Content.ToFetch) acc b) := rfl
    rw [hstep]
    rw [lookupKey_foldl_insert_isSome
      (fun fe : FileEntry => manifestPath fe.path) _ d]
    rw [lookupKey_foldl_insert_isSome manifestPath (fun _ _ => []) d]
    rw [lookupKey_insertKey_isSome]
    tauto
  · intro vfs m fe hfe
    unfold VirtualFilesystem.initialize_from_manifest
    exact manifestFold_sets m.files fe hfe _

/-- Concrete run of claim5_manifest_bootstrap: bootstrapping an empty store
from a manifest listing one file stores a pending marker for it. -/
theorem claim5_witness :
    (VirtualFilesystem.initialize_from_manifest ⟨[]⟩
        ⟨[⟨"making_this.md", "blog"⟩], ["blog"]⟩).get_content
      ⟨manifestPath "blog", "making_this.md"⟩ = some Content.ToFetch :=
  claim5_manifest_bootstrap.2 ⟨[]⟩ ⟨[⟨"making_this.md", "blog"⟩], ["blog"]⟩
    ⟨"making_this.md", "blog"⟩ (List.mem_singleton.mpr rfl)

/-- C5 counterexample: a manifest listing only the directory a/b creates an
entry for a/b but no entry for its ancestor a — the claim as stated requires
every ancestor of a listed directory to be present as a directory entry. -/
theorem claim5_counterexample :
    lookupKey ((VirtualFilesystem.mk []).initialize_from_manifest
      ⟨[], ["a/b"]⟩).content ⟨[.In "a", .In "b"]⟩ = some [] ∧
    lookupKey ((VirtualFilesystem.mk []).initialize_from_manifest
      ⟨[], ["a/b"]⟩).content ⟨[.In "a"]⟩ = none := by
  constructor <;> rfl

/-! The resolution helpers, from src/rust/src/filesystem/helpers.rs and
filesystem/cave_of_dice.rs.  The three thread-local stores (current
directory aside, which no claim needs) become one explicit state value; the
external fetch capability becomes a function from URL to fetched text or
failure; the console log calls are omitted. -/

/-- The process-wide state the helpers operate on: the eager store, the
caching overlay and the one-shot procedural-subtree flag (the thread-locals
VIRTUAL_FS, ABYSS_FS and CAVE_OF_DICE_INITIALISED in filesystem/mod.rs). -/
structure World where
  vfs : VirtualFilesystem
  abyss : AbyssFileSystem
  codInit : Bool
deriving DecidableEq, Repr

/-- path_in_abyss from helpers.rs lines 127-132: the path's first move is a
descend into the reserved remote-root name. -/
def path_in_abyss (p : DirPath) : Bool :=
  match p.moves.head? with
  | some (.In x) => x = "abyss"
  | _ => false

/-- initialise_with_file_structure from cave_of_dice.rs lines 90-102: if the
one-shot flag is still clear, merge every entry of the standalone subtree
filesystem into the overlay under the mount path (by path concatenation with
clamping off) and set the flag. -/
def initialise_with_file_structure (cod_path : DirPath)
    (cod_fs : AbyssFileSystem) (w : World) : World :=
  if w.codInit then w
  else
    { w with
      abyss :=
        ⟨cod_fs.files.foldl
            (fun acc kv => insertKey acc (cod_path.concat kv.1 false) kv.2)
            w.abyss.files,
          cod_fs.dirs.foldl
            (fun acc kv => insertKey acc (cod_path.concat kv.1 false) kv.2)
            w.abyss.dirs⟩,
      codInit := true }

/-- path_in_cave_of_dice from cave_of_dice.rs lines 9-19: if some move of
the path descends into the reserved subtree-mount name, merge the subtree at
the prefix up to that move and report whether the path is in the overlay;
otherwise report false.  Returns the flag together with the updated state. -/
def path_in_cave_of_dice (cod_fs : AbyssFileSystem) (p : DirPath) (w : World) :
    Bool × World :=
  match p.moves.findIdx? (fun x => decide (x = NextDir.In "cave_of_dice")) with
  | some x =>
    (path_in_abyss p,
      initialise_with_file_structure ⟨p.moves.take (x + 1)⟩ cod_fs w)
  | none => (false, w)

/-- Insertion sort cell for name sorting (Vec::sort on strings). -/
def insortString (s : String) : List String → List String
  | [] => [s]
  | x :: xs =>
    match compare s x with
    | .gt => x :: insortString s xs
    | _ => s :: x :: xs

/-- Name sorting used by the listing helpers. -/
def sortStrings (l : List String) : List String :=
  l.foldr insortString []

/-- VirtualFilesystem::list_files_in_dir, virtual_fs.rs lines 116-124. -/
def VirtualFilesystem.list_files_in_dir (vfs : VirtualFilesystem) (d : DirPath) :
    List String :=
  match lookupKey vfs.content d with
  | some files => sortStrings (files.map (fun kv => kv.1))
  | none => []

/-- VirtualFilesystem::list_subdirs_in_dir, virtual_fs.rs lines 127-152: the
sorted deduplicated final names of every stored key exactly one move longer
than the target whose leading moves match the target's. -/
def VirtualFilesystem.list_subdirs_in_dir (vfs : VirtualFilesystem) (d : DirPath) :
    List String :=
  sortStrings (vfs.content.foldl
    (fun acc kv =>
      if kv.1.moves.length = d.moves.length + 1 ∧
         kv.1.moves.take d.moves.length = d.moves then
        match kv.1.moves.getLast? with
        | some (.In name) => setInsert acc name
        | _ => acc
      else acc) [])

/-- The URL of a directory's file-listing side file as built by get_contents
in helpers.rs line 250. -/
def contentsUrl (d : DirPath) : String :=
  "content" ++ d.render ++ "/!!contents.txt"

/-- The URL of a directory's subdirectory-listing side file as built by
get_directories in helpers.rs line 223. -/
def directoriesUrl (d : DirPath) : String :=
  "content" ++ d.render ++ "/!!directories.txt"

/-- get_contents from helpers.rs lines 241-274.  The Bool in the result
records whether the external fetch capability was invoked; a none result
models the panic of the unwrap calls (on a failed listing fetch in the
overlay branch, or on an impossible missing content in the eager branch). -/
def helpers_get_contents (cod_fs : AbyssFileSystem)
    (fetch : String → Except String String) (w : World) (path : DirPath) :
    Option (World × Contents × Bool) :=
  if path_in_abyss path then
    let w' := (path_in_cave_of_dice cod_fs path w).2
    match lookupKey w'.abyss.files path with
    | some x => some (w', x, false)
    | none =>
      match fetch (contentsUrl path) with
      | .ok t => some (w', Contents.from_file t, true)
      | .error _ => none
  else
    match (w.vfs.list_files_in_dir path).mapM
      (fun f => (w.vfs.get_content ⟨path, f⟩).map (fun c => (f, c))) with
    | some entries => some (w, ⟨entries⟩, false)
    | none => none

/-- get_directories from helpers.rs lines 211-238, embedded like
helpers_get_contents. -/
def helpers_get_directories (cod_fs : AbyssFileSystem)
    (fetch : String → Except String String) (w : World) (path : DirPath) :
    Option (World × Directories × Bool) :=
  if path_in_abyss path then
    let w' := (path_in_cave_of_dice cod_fs path w).2
    match lookupKey w'.abyss.dirs path with
    | some x => some (w', x, false)
    | none =>
      match fetch (directoriesUrl path) with
      | .ok t => some (w', Directories.from_file t, true)
      | .error _ => none
  else
    some (w, ⟨w.vfs.list_subdirs_in_dir path⟩, false)

/-- AbyssFileSystem::get_contents, abyss.rs lines 222-231 (same shape as the
helpers version but reading this overlay value directly and using the URL
without the content-root marker). -/
def AbyssFileSystem.get_contents (afs : AbyssFileSystem)
    (fetch : String → Except String String) (d : DirPath) :
    Option (Contents × Bool) :=
  match lookupKey afs.files d with
  | some x => some (x, false)
  | none =>
    match fetch (d.render ++ "/!!contents.txt") with
    | .ok t => some (Contents.from_file t, true)
    | .error _ => none

/-- AbyssFileSystem::get_directories, abyss.rs lines 233-242. -/
def AbyssFileSystem.get_directories (afs : AbyssFileSystem)
    (fetch : String → Except String String) (d : DirPath) :
    Option (Directories × Bool) :=
  match lookupKey afs.dirs d with
  | some x => some (x, false)
  | none =>
    match fetch (d.render ++ "/!!directories.txt") with
    | .ok t => some (Directories.from_file t, true)
    | .error _ => none

/-! Named concrete states and oracles used in the counterexamples and
witnesses about the overlay lookups. -/

/-- A world whose stores are all empty and whose subtree flag is clear. -/
def emptyWorld : World := ⟨⟨[]⟩, ⟨[], []⟩, false⟩

/-- An empty standalone subtree filesystem. -/
def emptyCod : AbyssFileSystem := ⟨[], []⟩

/-- An overlay directory path. -/
def abyssX : DirPath := ⟨[.In "abyss", .In "x"]⟩

/-- A second overlay directory path. -/
def abyssY : DirPath := ⟨[.In "abyss", .In "y"]⟩

/-- A fetch oracle that always succeeds with a one-file listing. -/
def fetchListOk : String → Except String String := fun _ => .ok "a.txt\n"

/-- A fetch oracle that always fails. -/
def fetchDown : String → Except String String := fun _ => .error "Failed to fetch"

/-- C2 (amended): the overlay's listing lookups are read-through WITHOUT
write-back: on a cache hit (after the one-time procedural-subtree trigger)
the cached value is returned with no fetch; on a cache miss the authoritative
listing is fetched, parsed and returned, but the returned state is exactly
the post-trigger state — the fetched listing is not stored, so a later lookup
of the same cold path fetches again, while an already-cached path is never
fetched. -/
theorem claim2_read_through_no_writeback :
    (∀ (cod : AbyssFileSystem) (fetch : String → Except String String)
       (w : World) (d : DirPath) (x : Contents),
      path_in_abyss d = true →
      lookupKey ((path_in_cave_of_dice cod d w).2).abyss.files d = some x →
      helpers_get_contents cod fetch w d =
        some ((path_in_cave_of_dice cod d w).2, x, false)) ∧
    (∀ (cod : AbyssFileSystem) (fetch : String → Except String String)
       (w : World) (d : DirPath) (t : String),
      path_in_abyss d = true →
      lookupKey ((path_in_cave_of_dice cod d w).2).abyss.files d = none →
      fetch (contentsUrl d) = .ok t →
      helpers_get_contents cod fetch w d =
        some ((path_in_cave_of_dice cod d w).2, Contents.from_file t, true)) ∧
    (∀ (cod : AbyssFileSystem) (fetch : String → Except String String)
       (w : World) (d : DirPath) (x : Directories),
      path_in_abyss d = true →
      lookupKey ((path_in_cave_of_dice cod d w).2).abyss.dirs d = some x →
      helpers_get_directories cod fetch w d =
        some ((path_in_cave_of_dice cod d w).2, x, false)) ∧
    (∀ (cod : AbyssFileSystem) (fetch : String → Except String String)
       (w : World) (d : DirPath) (t : String),
      path_in_abyss d = true →
      lookupKey ((path_in_cave_of_dice cod d w).2).abyss.dirs d = none →
      fetch (directoriesUrl d) = .ok t →
      helpers_get_directories cod fetch w d =
        some ((path_in_cave_of_dice cod d w).2, Directories.from_file t, true)) := by
  refine ⟨?_, ?_, ?_, ?_⟩
  · intro cod fetch w d x hab hc
    simp [helpers_get_contents, hab, hc]
  · intro cod fetch w d t hab hc hf
    simp [helpers_get_contents, hab, hc, hf]
  · intro cod fetch w d x hab hc
    simp [helpers_get_directories, hab, hc]
  · intro cod fetch w d t hab hc hf
    simp [helpers_get_directories, hab, hc, hf]

/-- Concrete run of claim2_read_through_no_writeback: a cache hit returns
the cached listing with no fetch even under a failing fetch oracle. -/
theorem claim2_witness :
    helpers_get_contents emptyCod fetchDown
      ⟨⟨[]⟩, ⟨[(abyssX, ⟨[("hit.txt", .InMemory "v")]⟩)], []⟩, false⟩ abyssX =
      some (⟨⟨[]⟩, ⟨[(abyssX, ⟨[("hit.txt", .InMemory "v")]⟩)], []⟩, false⟩,
        ⟨[("hit.txt", .InMemory "v")]⟩, false) :=
  claim2_read_through_no_writeback.1 emptyCod fetchDown
    ⟨⟨[]⟩, ⟨[(abyssX, ⟨[("hit.txt", .InMemory "v")]⟩)], []⟩, false⟩ abyssX
    ⟨[("hit.txt", .InMemory "v")]⟩ rfl rfl

/-- C2 counterexample: a cold lookup of an overlay path fetches and returns
the parsed listing, but the state it returns is the unchanged input state, in
which the path is still uncached — so the fetched result was not stored and a
second lookup of the same path (the identical call on the returned state)
performs the fetch again, against the claim that the merged result is cached
and a second lookup performs no further fetch. -/
theorem claim2_counterexample :
    helpers_get_contents emptyCod fetchListOk emptyWorld abyssX =
      some (emptyWorld, ⟨[("a.txt", .ToFetch)]⟩, true) ∧
    lookupKey emptyWorld.abyss.files abyssX = none := by
  constructor <;> rfl

/-- C3 (amended): when the external fetch capability fails during an overlay
listing lookup on a cold path, the lookup does not return a value at all —
the unwrap on the failed fetch terminates the operation abruptly (modelled by
the none result) instead of propagating a not-found-equivalent value. -/
theorem claim3_fetch_failure_aborts :
    (∀ (cod : AbyssFileSystem) (fetch : String → Except String String)
       (w : World) (d : DirPath) (e : String),
      path_in_abyss d = true →
      lookupKey ((path_in_cave_of_dice cod d w).2).abyss.files d = none →
      fetch (contentsUrl d) = .error e →
      helpers_get_contents cod fetch w d = none) ∧
    (∀ (cod : AbyssFileSystem) (fetch : String → Except String String)
       (w : World) (d : DirPath) (e : String),
      path_in_abyss d = true →
      lookupKey ((path_in_cave_of_dice cod d w).2).abyss.dirs d = none →
      fetch (directoriesUrl d) = .error e →
      helpers_get_directories cod fetch w d = none) := by
  constructor
  · intro cod fetch w d e hab hc hf
    simp [helpers_get_contents, hab, hc, hf]
  · intro cod fetch w d e hab hc hf
    simp [helpers_get_directories, hab, hc, hf]

/-- Concrete run of claim3_fetch_failure_aborts on the subdirectory-listing
lookup. -/
theorem claim3_witness :
    helpers_get_directories emptyCod fetchDown emptyWorld abyssY = none :=
  claim3_fetch_failure_aborts.2 emptyCod fetchDown emptyWorld abyssY
    "Failed to fetch" rfl rfl rfl

/-- C3 counterexample: with the fetch capability failing, the cold overlay
file-listing lookup produces no returned value at all (the unwrap panics) —
the claim as stated requires a not-found-equivalent returned value on every
fetch failure. -/
theorem claim3_counterexample :
    fetchDown (contentsUrl abyssX) = .error "Failed to fetch" ∧
    helpers_get_contents emptyCod fetchDown emptyWorld abyssX = none := by
  constructor <;> rfl

/-! Session import, from src/rust/src/commands/mod.rs lines 82-122. -/

/-- A parsed JSON value, the shape import_session inspects (parsing the raw
text is the external serde capability; a parse failure reports an error with
the store untouched and no claim depends on its message). -/
inductive Json where
  | null
  | bool (b : Bool)
  | num (n : Int)
  | str (s : String)
  | arr (xs : List Json)
  | obj (fields : List (String × Json))

/-- Value::as_str. -/
def Json.as_str : Json → Option String
  | .str s => some s
  | _ => none

/-- Value::as_object. -/
def Json.as_object : Json → Option (List (String × Json))
  | .obj fs => some fs
  | _ => none

/-- Value::get on an object (field lookup; the parsed map has unique keys). -/
def Json.get (j : Json) (key : String) : Option Json :=
  match j with
  | .obj fs => lookupKey fs key
  | _ => none

/-- One entry of the import loop in import_session: a string-valued entry is
written to the eager store at its path parsed against the root; any other
value is skipped. -/
def importFileStep (vfs : VirtualFilesystem) (kv : String × Json) :
    VirtualFilesystem :=
  match kv.2.as_str with
  | some content => vfs.write_file (FilePath.parse kv.1 DirPath.root) content
  | none => vfs

/-- import_session from commands/mod.rs lines 82-122, on an already parsed
session value.  Returns the report string and the updated eager store. -/
def import_session (session : Json) (vfs : VirtualFilesystem) :
    String × VirtualFilesystem :=
  match (session.get "version").bind Json.as_str with
  | some version =>
    if version ≠ "1.0" then
      ("Error: Unsupported session version: " ++ version, vfs)
    else
      match (session.get "files").bind Json.as_object with
      | none => ("Error: Invalid session file: missing or invalid files", vfs)
      | some files =>
        let r := files.foldl
          (fun (acc : Nat × VirtualFilesystem) kv =>
            match kv.2.as_str with
            | some content =>
              (acc.1 + 1, acc.2.write_file (FilePath.parse kv.1 DirPath.root) content)
            | none => acc)
          (0, vfs)
        ("Imported " ++ toString r.1 ++ " file(s)", r.2)
  | none => ("Error: Invalid session file: missing version", vfs)

theorem importFold_characterisation (l : List (String × Json)) :
    ∀ (n : Nat) (vfs : VirtualFilesystem),
      l.foldl
        (fun (acc : Nat × VirtualFilesystem) kv =>
          match kv.2.as_str with
          | some content =>
            (acc.1 + 1, acc.2.write_file (FilePath.parse kv.1 DirPath.root) content)
          | none => acc)
        (n, vfs) =
      (n + (l.filter (fun kv => kv.2.as_str.isSome)).length,
        l.foldl importFileStep vfs) := by
  induction l with
  | nil => intro n vfs; simp
  | cons kv rest ih =>
    intro n vfs
    rw [List.foldl_cons]
    cases h : kv.2.as_str with
    | none =>
      rw [ih n vfs]
      simp [importFileStep, List.filter_cons, h]
    | some content =>
      rw [ih (n + 1) (vfs.write_file (FilePath.parse kv.1 DirPath.root) content)]
      simp [importFileStep, List.filter_cons, h, Prod.ext_iff]
      omega

theorem write_file_get_self (vfs : VirtualFilesystem) (fp : FilePath)
    (c : String) :
    (vfs.write_file fp c).get_content fp = some (.InMemory c) := by
  unfold VirtualFilesystem.write_file VirtualFilesystem.get_content
  dsimp only
  rw [lookupKey_insertKey_self]
  dsimp only
  rw [lookupKey_insertKey_self]

theorem write_file_preserves_isSome (vfs : VirtualFilesystem) (fp fq : FilePath)
    (c : String) (h : (vfs.get_content fq).isSome = true) :
    ((vfs.write_file fp c).get_content fq).isSome = true := by
  unfold VirtualFilesystem.get_content at h ⊢
  unfold VirtualFilesystem.write_file
  dsimp only
  by_cases hd : fp.dir = fq.dir
  · rw [hd, lookupKey_insertKey_self]
    dsimp only
    cases hc : lookupKey vfs.content fq.dir with
    | none => rw [hc] at h; cases h
    | some fs =>
      rw [hc] at h
      by_cases hn : fp.file = fq.file
      · rw [hn, lookupKey_insertKey_self]
        rfl
      · rw [lookupKey_insertKey_ne _ fq.file fp.file _ (fun hx => hn hx.symm)]
        dsimp only [Option.getD]
        simpa using h
  · rw [lookupKey_insertKey_ne _ fq.dir fp.dir _ (fun hx => hd hx.symm)]
    exact h

theorem importFileStep_preserves_isSome (vfs : VirtualFilesystem)
    (kv : String × Json) (fq : FilePath)
    (h : (vfs.get_content fq).isSome = true) :
    ((importFileStep vfs kv).get_content fq).isSome = true := by
  unfold importFileStep
  cases hs : kv.2.as_str with
  | none => exact h
  | some content => exact write_file_preserves_isSome vfs _ fq content h

theorem importFold_preserves_isSome (l : List (String × Json)) (fq : FilePath) :
    ∀ (vfs : VirtualFilesystem), (vfs.get_content fq).isSome = true →
      ((l.foldl importFileStep vfs).get_content fq).isSome = true := by
  induction l with
  | nil => intro vfs h; exact h
  | cons kv rest ih =>
    intro vfs h
    exact ih (importFileStep vfs kv) (importFileStep_preserves_isSome vfs kv fq h)

theorem importFold_writes_member (l : List (String × Json)) (p c : String)
    (hmem : (p, Json.str c) ∈ l) :
    ∀ (vfs : VirtualFilesystem),
      ((l.foldl importFileStep vfs).get_content
        (FilePath.parse p DirPath.root)).isSome = true := by
  induction l with
  | nil => cases hmem
  | cons kv rest ih =>
    intro vfs
    rcases List.mem_cons.mp hmem with hmem | hmem
    · rw [List.foldl_cons]
      refine importFold_preserves_isSome rest _ (importFileStep vfs kv) ?_
      rw [← hmem]
      show ((vfs.write_file (FilePath.parse p DirPath.root) c).get_content
        (FilePath.parse p DirPath.root)).isSome = true
      rw [write_file_get_self]
      rfl
    · exact ih hmem (importFileStep vfs kv)

/-- C7 (amended): session import rejects any version other than 1.0 (and a
missing or non-string version, and a missing or non-object files field) with
an error and an untouched store; otherwise it writes every STRING-valued
entry into the eager store at its path parsed against the root — entries
whose value is not a string are silently skipped, not written — and reports
as import count the number of string-valued entries. -/
theorem claim7_import_session :
    (∀ (session : Json) (vfs : VirtualFilesystem) (v : String),
      (session.get "version").bind Json.as_str = some v → v ≠ "1.0" →
      import_session session vfs = ("Error: Unsupported session version: " ++ v, vfs)) ∧
    (∀ (session : Json) (vfs : VirtualFilesystem),
      (session.get "version").bind Json.as_str = none →
      import_session session vfs = ("Error: Invalid session file: missing version", vfs)) ∧
    (∀ (session : Json) (vfs : VirtualFilesystem),
      (session.get "version").bind Json.as_str = some "1.0" →
      (session.get "files").bind Json.as_object = none →
      import_session session vfs =
        ("Error: Invalid session file: missing or invalid files", vfs)) ∧
    (∀ (session : Json) (vfs : VirtualFilesystem) (fs : List (String × Json)),
      (session.get "version").bind Json.as_str = some "1.0" →
      (session.get "files").bind Json.as_object = some fs →
      import_session session vfs =
        ("Imported " ++ toString (fs.filter (fun kv => kv.2.as_str.isSome)).length
          ++ " file(s)", fs.foldl importFileStep vfs)) ∧
    (∀ (session : Json) (vfs : VirtualFilesystem) (fs : List (String × Json))
       (p c : String),
      (session.get "version").bind Json.as_str = some "1.0" →
      (session.get "files").bind Json.as_object = some fs →
      (p, Json.str c) ∈ fs →
      (((import_session session vfs).2).get_content
        (FilePath.parse p DirPath.root)).isSome = true) := by
  refine ⟨?_, ?_, ?_, ?_, ?_⟩
  · intro session vfs v hv hne
    unfold import_session
    rw [hv]
    simp [hne]
  · intro session vfs hv
    unfold import_session
    rw [hv]
  · intro session vfs hv hf
    unfold import_session
    rw [hv, hf]
    simp
  · intro session vfs fs hv hf
    unfold import_session
    rw [hv, hf]
    simp only [if_neg (by simp : ¬("1.0" ≠ "1.0"))]
    rw [importFold_characterisation fs 0 vfs]
    simp
  · intro session vfs fs p c hv hf hmem
    unfold import_session
    rw [hv, hf]
    simp only [if_neg (by simp : ¬("1.0" ≠ "1.0"))]
    rw [importFold_characterisation fs 0 vfs]
    exact importFold_writes_member fs p c hmem vfs

/-- Concrete run of claim7_import_session: a session with version 2.0 is
rejected with the unsupported-version report and the store untouched. -/
theorem claim7_witness :
    import_session (.obj [("version", .str "2.0"),
      ("files", .obj [("/a.txt", .str "1")])]) ⟨[]⟩ =
      ("Error: Unsupported session version: 2.0", ⟨[]⟩) :=
  claim7_import_session.1 (.obj [("version", .str "2.0"),
    ("files", .obj [("/a.txt", .str "1")])]) ⟨[]⟩ "2.0" rfl (by decide)

/-- C7 counterexample: an accepted version-1.0 session whose single files
entry has a non-string value is reported as an import of zero files and
writes nothing — the claim as stated says every entry of the files object is
written into the store. -/
theorem claim7_counterexample :
    import_session (.obj [("version", .str "1.0"),
      ("files", .obj [("/a.txt", .num 5)])]) ⟨[]⟩ = ("Imported 0 file(s)", ⟨[]⟩) ∧
    VirtualFilesystem.get_content ⟨[]⟩ (FilePath.parse "/a.txt" DirPath.root) = none := by
  constructor <;> rfl

/-! The procedural subtree generator, from
src/rust/src/filesystem/cave_of_dice.rs. -/

/-- The size-class assignment of a subtree node, cave_of_dice.rs lines
49-67: a recognized dice-directory name determines the size, any other name
takes the random pick among the six classes (pick is the outcome of
random_range over 0..6, every value from 4 upward mapping to 20 like the
catch-all arm); none models the unreachable arm for a path without a final
component. -/
def sizeClassOf (p : DirPath) (pick : Nat) : Option Nat :=
  match p.final_component with
  | some "d4" => some 4
  | some "d6" => some 6
  | some "d8" => some 8
  | some "d10" => some 10
  | some "d12" => some 12
  | some "d20" => some 20
  | none => none
  | some _ => some ([4, 6, 8, 10, 12, 20].getD pick 20)

/-- The child-spawning loop of the CAVE_OF_DICE build step, cave_of_dice.rs
lines 69-76: for each i in 1..=n the child route_i is inserted into the
node's subdirectory set when the i-th random draw (an outcome of
random_range over 0..n*depth) is below 3.  The draws are a function
parameter giving each iteration's outcome. -/
def spawnChildren (n : Nat) (draws : Nat → Nat) : List String :=
  (List.range' 1 n).foldl
    (fun acc i =>
      if draws i < 3 then setInsert acc ("route_" ++ toString i) else acc) []

theorem setInsert_length (l : List String) (s : String) :
    (setInsert l s).length ≤ l.length + 1 := by
  unfold setInsert
  by_cases h : s ∈ l
  · simp [h]
  · simp [h]

theorem spawnFold_length (draws : Nat → Nat) (l : List Nat) :
    ∀ (acc : List String),
      ((l.foldl
        (fun acc i =>
          if draws i < 3 then setInsert acc ("route_" ++ toString i) else acc)
        acc).length) ≤ acc.length + l.length := by
  induction l with
  | nil => intro acc; simp
  | cons i rest ih =>
    intro acc
    rw [List.foldl_cons]
    by_cases h : draws i < 3
    · rw [if_pos h]
      have h1 := ih (setInsert acc ("route_" ++ toString i))
      have h2 := setInsert_length acc ("route_" ++ toString i)
      simp only [List.length_cons]
      omega
    · rw [if_neg h]
      have h1 := ih acc
      simp only [List.length_cons]
      omega

/-- C10 (amended): every generated node with size-class n spawns between
zero and n child directories (the spawning loop runs one independent
inclusion test per value 1..=n), for every outcome of the random draws. -/
theorem claim10_spawn_upper_bound (p : DirPath) (pick n : Nat)
    (draws : Nat → Nat) (_h : sizeClassOf p pick = some n) :
    (spawnChildren n draws).length ≤ n := by
  unfold spawnChildren
  have := spawnFold_length draws (List.range' 1 n) []
  simpa using this

/-- An all-zero outcome of the random draws (each draw of random_range over a
non-empty range can be zero). -/
def drawsZero : Nat → Nat := fun _ => 0

/-- Concrete run of claim10_spawn_upper_bound at the d4 node of the initial
worklist. -/
theorem claim10_witness : (spawnChildren 4 drawsZero).length ≤ 4 :=
  claim10_spawn_upper_bound ⟨[.In "d4"]⟩ 0 4 drawsZero rfl

/-- C10 counterexample: the d4 node of the initial worklist (size-class 4,
depth 1) spawns all four of its candidate children when every draw comes out
zero — a valid outcome, each draw ranging over 0..4 — against the claimed
bound of at most size minus one. -/
theorem claim10_counterexample :
    sizeClassOf ⟨[.In "d4"]⟩ 0 = some 4 ∧
    ([1, 2, 3, 4].all (fun i => drawsZero i < 4 * 1)) = true ∧
    (spawnChildren 4 drawsZero).length = 4 ∧
    ¬((spawnChildren 4 drawsZero).length ≤ 4 - 1) := by
  refine ⟨rfl, rfl, rfl, by decide⟩

end Site
